import Mathlib

/-!
Shallow embedding of the `TemplateDatabase` SQLite wrapper (src/lib.rs).

The database state is modelled as the contents of the two tables created by
`from_path`:
  templates  (id INTEGER PRIMARY KEY, name TEXT NOT NULL UNIQUE)
  substitutes(id INTEGER PRIMARY KEY, name TEXT NOT NULL,
              template_id INTEGER NOT NULL REFERENCES templates(id),
              UNIQUE(name, template_id))
Rows are kept in insertion order; `INTEGER PRIMARY KEY` auto-assignment is
modelled with `nextTemplateId` / `nextSubId` counters.  Each operation of the
Rust impl block becomes a function `DBState → args → Except DbError α × DBState`:
the second component is the committed state, and an `.error` result returns the
original state (the Rust code propagates the error with `?`, dropping the
`Transaction`, which rolls back).  `rusqlite::Error::QueryReturnedNoRows`
(raised by `query_row` in `find_template_id`) is `queryReturnedNoRows`; a
UNIQUE-constraint failure of an UPDATE is `constraintViolation`.
`ORDER BY LOWER(name) ASC` is modelled with a stable merge sort on the
lowercased name, and `ORDER BY RANDOM() LIMIT 1` takes the random choice as an
extra `pick : Nat` parameter.
-/

namespace TemplateDatabase

/-- One row per table, in insertion order, plus the next auto-assigned ids. -/
structure DBState where
  templates : List (Nat × String)
  substitutes : List (Nat × String × Nat)
  nextTemplateId : Nat
  nextSubId : Nat
deriving Repr, DecidableEq

/-- The `rusqlite::Error` values the library can surface on the modelled paths. -/
inductive DbError where
  | queryReturnedNoRows
  | constraintViolation
deriving Repr, DecidableEq

/-- `TemplateDatabase::from_path` on a fresh path: both tables exist and are empty. -/
def from_path : DBState := ⟨[], [], 1, 1⟩

/-- `find_template_id` / `find_template_id_with_transaction`:
`SELECT id FROM templates WHERE name = ?1` via `query_row`, which yields
`QueryReturnedNoRows` when no row matches. -/
def find_template_id (db : DBState) (template : String) : Except DbError Nat :=
  match db.templates.find? (fun t => t.2 == template) with
  | some t => .ok t.1
  | none => .error .queryReturnedNoRows

/-- Whether a template row with the given name exists. -/
def templateExists (db : DBState) (template : String) : Bool :=
  db.templates.any (fun t => t.2 == template)

/-- Whether a substitutes row with the given (name, template_id) pair exists. -/
def subPresent (db : DBState) (tid : Nat) (s : String) : Bool :=
  db.substitutes.any (fun r => r.2.1 == s && r.2.2 == tid)

/-- `INSERT OR IGNORE INTO substitutes (name, template_id) VALUES (?1, ?2)`:
inserts unless the UNIQUE(name, template_id) constraint would fire; the `Bool`
is `rows affected > 0`. -/
def insertSubRow (db : DBState) (tid : Nat) (s : String) : Bool × DBState :=
  if subPresent db tid s then (false, db)
  else (true, ⟨db.templates, db.substitutes ++ [(db.nextSubId, s, tid)],
               db.nextTemplateId, db.nextSubId + 1⟩)

/-- `insert_sub`: resolve the template id (NotFound if absent), then
insert-or-ignore the pair; returns whether a row was inserted. -/
def insert_sub (db : DBState) (template substitute : String) :
    Except DbError Bool × DBState :=
  match find_template_id db template with
  | .error e => (.error e, db)
  | .ok tid =>
    let p := insertSubRow db tid substitute
    (.ok p.1, p.2)

/-- `execute_insert_template`: `INSERT OR IGNORE INTO templates (name) VALUES (?1)`. -/
def execute_insert_template (db : DBState) (template : String) : DBState :=
  if templateExists db template then db
  else ⟨db.templates ++ [(db.nextTemplateId, template)], db.substitutes,
        db.nextTemplateId + 1, db.nextSubId⟩

/-- `execute_insert_subs`: insert-or-ignore each substitute in order, recording
those actually inserted (the change log), in caller order. -/
def execute_insert_subs : DBState → Nat → List String → List String × DBState
  | db, _, [] => ([], db)
  | db, tid, s :: rest =>
    let p := insertSubRow db tid s
    let q := execute_insert_subs p.2 tid rest
    (if p.1 then s :: q.1 else q.1, q.2)

/-- `insert_subs`: one transaction that inserts the template row if absent and
then, when a substitute slice is supplied, insert-or-ignores each substitute,
returning the change log of newly inserted ones. -/
def insert_subs (db : DBState) (template : String) (substitutes : Option (List String)) :
    Except DbError (List String) × DBState :=
  let db1 := execute_insert_template db template
  match substitutes with
  | none => (.ok [], db1)
  | some subs =>
    match find_template_id db1 template with
    | .error e => (.error e, db)
    | .ok tid =>
      let p := execute_insert_subs db1 tid subs
      (.ok p.1, p.2)

/-- The names of the substitutes rows with the given template_id, in row order. -/
def subsOf (db : DBState) (tid : Nat) : List String :=
  (db.substitutes.filter (fun r => r.2.2 == tid)).map (fun r => r.2.1)

/-- The substitutes currently stored under a template name ([] when the
template does not exist), in row order. -/
def currentSubs (db : DBState) (template : String) : List String :=
  match db.templates.find? (fun t => t.2 == template) with
  | some t => subsOf db t.1
  | none => []

/-- The comparison of `ORDER BY LOWER(name) ASC`. -/
def lowerLe (a b : String) : Bool := decide (a.toLower ≤ b.toLower)

/-- `get_subs`: resolve the template id (NotFound if absent), then return the
substitute names ordered by lowercased name. -/
def get_subs (db : DBState) (template : String) : Except DbError (List String) :=
  match find_template_id db template with
  | .error e => .error e
  | .ok tid => .ok ((subsOf db tid).mergeSort lowerLe)

/-- `get_templates`: all template names ordered by lowercased name. -/
def get_templates (db : DBState) : List String :=
  (db.templates.map (fun t => t.2)).mergeSort lowerLe

/-- `get_random_subs`: resolve the template id (NotFound if absent); with no
substitutes return `""`, otherwise an arbitrarily chosen row (`ORDER BY
RANDOM() LIMIT 1`), the choice supplied as `pick`. -/
def get_random_subs (db : DBState) (template : String) (pick : Nat) :
    Except DbError String :=
  match find_template_id db template with
  | .error e => .error e
  | .ok tid =>
    let subs := subsOf db tid
    if subs.isEmpty then .ok ""
    else .ok (subs.getD (pick % subs.length) "")

/-- `remove_template`: resolve the id (NotFound if absent), delete the
template's substitutes, then the template row; returns `rows affected > 0`. -/
def remove_template (db : DBState) (template : String) : Except DbError Bool × DBState :=
  match find_template_id db template with
  | .error e => (.error e, db)
  | .ok tid =>
    let db1 : DBState := { db with substitutes := db.substitutes.filter (fun r => !(r.2.2 == tid)) }
    let deleted := (db1.templates.filter (fun t => t.1 == tid)).length
    (.ok (decide (0 < deleted)), { db1 with templates := db1.templates.filter (fun t => !(t.1 == tid)) })

/-- `DELETE FROM substitutes WHERE template_id = ?1 AND name = ?2`; the `Bool`
is `rows affected > 0`. -/
def removeSubRow (db : DBState) (tid : Nat) (s : String) : Bool × DBState :=
  let deleted := (db.substitutes.filter (fun r => r.2.2 == tid && r.2.1 == s)).length
  (decide (0 < deleted),
   { db with substitutes := db.substitutes.filter (fun r => !(r.2.2 == tid && r.2.1 == s)) })

/-- `remove_sub`: resolve the id (NotFound if absent), then delete the pair. -/
def remove_sub (db : DBState) (template substitute : String) :
    Except DbError Bool × DBState :=
  match find_template_id db template with
  | .error e => (.error e, db)
  | .ok tid =>
    let p := removeSubRow db tid substitute
    (.ok p.1, p.2)

/-- The deletion loop of `remove_subs`: delete each supplied substitute,
recording the ones that deleted a row, in caller order. -/
def execute_remove_subs : DBState → Nat → List String → List String × DBState
  | db, _, [] => ([], db)
  | db, tid, s :: rest =>
    let p := removeSubRow db tid s
    let q := execute_remove_subs p.2 tid rest
    (if p.1 then s :: q.1 else q.1, q.2)

/-- `remove_subs`: resolve the id (NotFound if absent), then run the deletion
loop and return the list of substitutes actually removed. -/
def remove_subs (db : DBState) (template : String) (substitutes : List String) :
    Except DbError (List String) × DBState :=
  match find_template_id db template with
  | .error e => (.error e, db)
  | .ok tid =>
    let p := execute_remove_subs db tid substitutes
    (.ok p.1, p.2)

/-- `rename_template`: `UPDATE templates SET name = ?1 WHERE name = ?2`.
Zero matched rows succeed with `false`; updating a matched row to a name held
by a different row fires the UNIQUE(name) constraint (`constraintViolation`,
rolled back); otherwise the matched rows are renamed and `rows affected > 0`
is returned. -/
def rename_template (db : DBState) (old_template new_template : String) :
    Except DbError Bool × DBState :=
  let matched := (db.templates.filter (fun t => t.2 == old_template)).length
  if matched == 0 then (.ok false, db)
  else if new_template != old_template && templateExists db new_template then
    (.error .constraintViolation, db)
  else
    let upd := fun (t : Nat × String) => if t.2 == old_template then (t.1, new_template) else t
    (.ok (decide (0 < matched)), { db with templates := db.templates.map upd })

/-- The state produced by the UPDATE of `rename_substitute`: every substitutes
row matching (old name, template id) gets the new name. -/
def rsubState (db : DBState) (tid : Nat) (old_sub new_sub : String) : DBState :=
  ⟨db.templates,
   db.substitutes.map (fun r => if r.2.1 == old_sub && r.2.2 == tid then (r.1, new_sub, r.2.2) else r),
   db.nextTemplateId, db.nextSubId⟩

/-- `rename_substitute`: resolve the template id (NotFound if absent), then
`UPDATE substitutes SET name = ?1 WHERE name = ?2 AND template_id = ?3`.
Zero matched rows succeed with `false`; renaming onto an existing
(name, template_id) pair of a different row fires the UNIQUE constraint. -/
def rename_substitute (db : DBState) (template old_sub new_sub : String) :
    Except DbError Bool × DBState :=
  match find_template_id db template with
  | .error e => (.error e, db)
  | .ok tid =>
    let matched := (db.substitutes.filter (fun r => r.2.1 == old_sub && r.2.2 == tid)).length
    if matched == 0 then (.ok false, db)
    else if new_sub != old_sub && subPresent db tid new_sub then
      (.error .constraintViolation, db)
    else (.ok (decide (0 < matched)), rsubState db tid old_sub new_sub)

/-- `clear`: `DELETE FROM substitutes` then `DELETE FROM templates`. -/
def clear (db : DBState) : DBState :=
  { db with substitutes := [], templates := [] }

/-- Referential invariant of the schema: every substitutes row's template_id
references an existing templates row. -/
def refInvariant (db : DBState) : Prop :=
  ∀ r ∈ db.substitutes, ∃ t ∈ db.templates, t.1 = r.2.2

/-- The state invariants the schema's constraints and id assignment maintain. -/
structure WF (db : DBState) : Prop where
  tmplNames : (db.templates.map (fun t => t.2)).Nodup
  tmplIds : (db.templates.map (fun t => t.1)).Nodup
  tmplFresh : ∀ t ∈ db.templates, t.1 < db.nextTemplateId
  subPairs : (db.substitutes.map (fun r => (r.2.1, r.2.2))).Nodup
  ref : refInvariant db

/-- Shorthand for the UNIQUE(name, template_id) key of a substitutes row. -/
def pairKey (r : Nat × String × Nat) : String × Nat := (r.2.1, r.2.2)

/-- The empty store is well formed. -/
theorem wf_from_path : WF from_path := by
  constructor <;> simp [from_path, refInvariant]

example : (insert_subs from_path "noun" (some ["b", "A", "b"])).1 = .ok ["b", "A"] := by
  rfl

example : currentSubs (insert_subs from_path "noun" (some ["b", "A", "b"])).2 "noun"
    = ["b", "A"] := by rfl

/-! ### Row-level membership characterizations -/

theorem mem_subsOf {db : DBState} {tid : Nat} {x : String} :
    x ∈ subsOf db tid ↔ ∃ r ∈ db.substitutes, r.2.1 = x ∧ r.2.2 = tid := by
  simp only [subsOf, List.mem_map, List.mem_filter, beq_iff_eq]
  aesop

theorem subPresent_iff {db : DBState} {tid : Nat} {x : String} :
    subPresent db tid x = true ↔ x ∈ subsOf db tid := by
  simp only [subPresent, List.any_eq_true, Bool.and_eq_true, beq_iff_eq, mem_subsOf]

theorem subPresent_eq_false_iff {db : DBState} {tid : Nat} {x : String} :
    subPresent db tid x = false ↔ x ∉ subsOf db tid := by
  rw [← subPresent_iff, Bool.not_eq_true, Bool.eq_false_iff, ne_eq, Bool.not_eq_true]

theorem templateExists_iff {db : DBState} {T : String} :
    templateExists db T = true ↔ ∃ t ∈ db.templates, t.2 = T := by
  simp [templateExists, List.any_eq_true]

theorem find_template_id_none {db : DBState} {T : String}
    (h : templateExists db T = false) :
    find_template_id db T = .error .queryReturnedNoRows := by
  have hnone : db.templates.find? (fun t => t.2 == T) = none := by
    rw [List.find?_eq_none]
    intro t ht
    simp only [beq_iff_eq]
    intro he
    have hx : templateExists db T = true := templateExists_iff.mpr ⟨t, ht, he⟩
    rw [h] at hx
    exact Bool.false_ne_true hx
  simp [find_template_id, hnone]

theorem find_template_id_ok {db : DBState} {T : String} {tid : Nat}
    (h : find_template_id db T = .ok tid) :
    ∃ t ∈ db.templates, t.2 = T ∧ t.1 = tid := by
  unfold find_template_id at h
  cases hf : db.templates.find? (fun t => t.2 == T) with
  | none => rw [hf] at h; exact absurd h (by simp)
  | some t =>
    rw [hf] at h
    have ht := List.mem_of_find?_eq_some hf
    have hp := List.find?_some hf
    simp only [beq_iff_eq] at hp
    exact ⟨t, ht, hp, by simpa using h⟩

/-! ### `insertSubRow` -/

theorem insertSubRow_templates (db : DBState) (tid : Nat) (s : String) :
    (insertSubRow db tid s).2.templates = db.templates := by
  unfold insertSubRow; split <;> rfl

theorem insertSubRow_fst (db : DBState) (tid : Nat) (s : String) :
    (insertSubRow db tid s).1 = !(subPresent db tid s) := by
  unfold insertSubRow
  by_cases h : subPresent db tid s = true <;> simp [h]

theorem insertSubRow_of_present {db : DBState} {tid : Nat} {s : String}
    (h : subPresent db tid s = true) : insertSubRow db tid s = (false, db) := by
  unfold insertSubRow; simp [h]

theorem insertSubRow_subs_of_absent {db : DBState} {tid : Nat} {s : String}
    (h : subPresent db tid s = false) :
    (insertSubRow db tid s).2.substitutes = db.substitutes ++ [(db.nextSubId, s, tid)] := by
  unfold insertSubRow; simp [h]

theorem mem_subsOf_insertSubRow {db : DBState} {tid : Nat} {s : String}
    (tid' : Nat) (x : String) :
    x ∈ subsOf (insertSubRow db tid s).2 tid' ↔
      x ∈ subsOf db tid' ∨ (x = s ∧ tid' = tid) := by
  by_cases h : subPresent db tid s = true
  · rw [insertSubRow_of_present h]
    constructor
    · exact fun hx => Or.inl hx
    · rintro (hx | ⟨h1, h2⟩)
      · exact hx
      · rw [h1, h2]; exact subPresent_iff.mp h
  · have h' : subPresent db tid s = false := by simpa using h
    rw [mem_subsOf, insertSubRow_subs_of_absent h', mem_subsOf]
    simp only [List.mem_append, List.mem_singleton]
    constructor
    · rintro ⟨r, hr | hr, h1, h2⟩
      · exact Or.inl ⟨r, hr, h1, h2⟩
      · subst hr; exact Or.inr ⟨h1.symm, h2.symm⟩
    · rintro (⟨r, hr, h1, h2⟩ | ⟨h1, h2⟩)
      · exact ⟨r, Or.inl hr, h1, h2⟩
      · exact ⟨(db.nextSubId, s, tid), Or.inr rfl, h1.symm, h2.symm⟩

theorem subPresent_insertSubRow {db : DBState} {tid : Nat} {s : String}
    (tid' : Nat) (x : String) :
    subPresent (insertSubRow db tid s).2 tid' x = true ↔
      subPresent db tid' x = true ∨ (x = s ∧ tid' = tid) := by
  rw [subPresent_iff, mem_subsOf_insertSubRow, subPresent_iff]

theorem insertSubRow_pairs_nodup {db : DBState} {tid : Nat} {s : String}
    (h : (db.substitutes.map pairKey).Nodup) :
    ((insertSubRow db tid s).2.substitutes.map pairKey).Nodup := by
  by_cases hs : subPresent db tid s = true
  · rw [insertSubRow_of_present hs]; exact h
  · have hs' : subPresent db tid s = false := by simpa using hs
    rw [insertSubRow_subs_of_absent hs', List.map_append]
    have hnotin : (s, tid) ∉ db.substitutes.map pairKey := by
      intro hmem
      rcases List.mem_map.mp hmem with ⟨r, hr, hkey⟩
      have h1 : r.2.1 = s := congrArg Prod.fst hkey
      have h2 : r.2.2 = tid := congrArg Prod.snd hkey
      exact (subPresent_eq_false_iff.mp hs') (mem_subsOf.mpr ⟨r, hr, h1, h2⟩)
    simp [List.nodup_append, h, pairKey, hnotin]

theorem insertSubRow_ref {db : DBState} {tid : Nat} {s : String}
    (h : refInvariant db) (ht : ∃ t ∈ db.templates, t.1 = tid) :
    refInvariant (insertSubRow db tid s).2 := by
  by_cases hs : subPresent db tid s = true
  · rw [insertSubRow_of_present hs]; exact h
  · have hs' : subPresent db tid s = false := by simpa using hs
    intro r hr
    rw [insertSubRow_templates]
    rw [insertSubRow_subs_of_absent hs'] at hr
    rcases List.mem_append.mp hr with hr' | hr'
    · exact h r hr'
    · rw [List.mem_singleton.mp hr']
      exact ht

/-! ### `execute_insert_subs` -/

theorem eis_templates (tid : Nat) (S : List String) :
    ∀ db : DBState, (execute_insert_subs db tid S).2.templates = db.templates := by
  induction S with
  | nil => intro db; rfl
  | cons s rest ih =>
    intro db
    simp only [execute_insert_subs]
    rw [ih, insertSubRow_templates]

theorem eis_mem_subsOf (tid : Nat) (S : List String) :
    ∀ (db : DBState) (tid' : Nat) (x : String),
      x ∈ subsOf (execute_insert_subs db tid S).2 tid' ↔
        x ∈ subsOf db tid' ∨ (tid' = tid ∧ x ∈ S) := by
  induction S with
  | nil => intro db tid' x; simp [execute_insert_subs]
  | cons s rest ih =>
    intro db tid' x
    simp only [execute_insert_subs]
    rw [ih, mem_subsOf_insertSubRow]
    simp only [List.mem_cons]
    tauto

theorem eis_log_mem (tid : Nat) (S : List String) :
    ∀ (db : DBState) (x : String),
      x ∈ (execute_insert_subs db tid S).1 ↔ x ∈ S ∧ x ∉ subsOf db tid := by
  induction S with
  | nil => intro db x; simp [execute_insert_subs]
  | cons s rest ih =>
    intro db x
    simp only [execute_insert_subs]
    by_cases hs : subPresent db tid s = true
    · rw [insertSubRow_of_present hs]
      rw [if_neg Bool.false_ne_true]
      simp only [List.mem_cons]
      rw [ih]
      have hmem : s ∈ subsOf db tid := subPresent_iff.mp hs
      constructor
      · rintro ⟨hx, hnx⟩; exact ⟨Or.inr hx, hnx⟩
      · rintro ⟨hx | hx, hnx⟩
        · exact absurd (hx ▸ hmem) hnx
        · exact ⟨hx, hnx⟩
    · have hs' : subPresent db tid s = false := by simpa using hs
      have hfst : (insertSubRow db tid s).1 = true := by
        rw [insertSubRow_fst, hs']; rfl
      rw [hfst, if_pos rfl]
      simp only [List.mem_cons]
      rw [ih]
      have habs : s ∉ subsOf db tid := subPresent_eq_false_iff.mp hs'
      have hsub : ∀ y, y ∈ subsOf (insertSubRow db tid s).2 tid ↔
          y ∈ subsOf db tid ∨ y = s := by
        intro y
        rw [mem_subsOf_insertSubRow]
        tauto
      rw [hsub]
      constructor
      · rintro (rfl | ⟨hx, hnx⟩)
        · exact ⟨Or.inl rfl, habs⟩
        · exact ⟨Or.inr hx, fun hc => hnx (Or.inl hc)⟩
      · rintro ⟨hx | hx, hnx⟩
        · exact Or.inl hx
        · by_cases hxs : x = s
          · exact Or.inl hxs
          · exact Or.inr ⟨hx, by tauto⟩

theorem eis_log_sublist (tid : Nat) (S : List String) :
    ∀ db : DBState, (execute_insert_subs db tid S).1.Sublist S := by
  induction S with
  | nil => intro db; simp [execute_insert_subs]
  | cons s rest ih =>
    intro db
    simp only [execute_insert_subs]
    split
    · exact (ih _).cons₂ s
    · exact (ih _).cons s

theorem eis_log_nodup (tid : Nat) (S : List String) :
    ∀ db : DBState, (execute_insert_subs db tid S).1.Nodup := by
  induction S with
  | nil => intro db; simp [execute_insert_subs]
  | cons s rest ih =>
    intro db
    simp only [execute_insert_subs]
    split
    · rename_i hp
      refine List.Nodup.cons ?_ (ih _)
      intro hmem
      have := (eis_log_mem tid rest _ s).mp hmem
      have hin : s ∈ subsOf (insertSubRow db tid s).2 tid :=
        (mem_subsOf_insertSubRow tid s).mpr (Or.inr ⟨rfl, rfl⟩)
      exact this.2 hin
    · exact ih _

theorem eis_pairs_nodup (tid : Nat) (S : List String) :
    ∀ db : DBState, (db.substitutes.map pairKey).Nodup →
      ((execute_insert_subs db tid S).2.substitutes.map pairKey).Nodup := by
  induction S with
  | nil => intro db h; exact h
  | cons s rest ih =>
    intro db h
    simp only [execute_insert_subs]
    exact ih _ (insertSubRow_pairs_nodup h)

theorem eis_ref (tid : Nat) (S : List String) :
    ∀ db : DBState, refInvariant db → (∃ t ∈ db.templates, t.1 = tid) →
      refInvariant (execute_insert_subs db tid S).2 := by
  induction S with
  | nil => intro db h _; exact h
  | cons s rest ih =>
    intro db h ht
    simp only [execute_insert_subs]
    refine ih _ (insertSubRow_ref h ht) ?_
    rw [insertSubRow_templates]
    exact ht

theorem eis_noop (tid : Nat) (S : List String) :
    ∀ db : DBState, (∀ x ∈ S, x ∈ subsOf db tid) →
      execute_insert_subs db tid S = ([], db) := by
  induction S with
  | nil => intro db _; rfl
  | cons s rest ih =>
    intro db h
    have hp : subPresent db tid s = true := subPresent_iff.mpr (h s (by simp))
    simp only [execute_insert_subs]
    rw [insertSubRow_of_present hp]
    rw [ih db (fun x hx => h x (by simp [hx]))]
    simp

/-! ### `execute_insert_template` and id resolution -/

theorem eit_substitutes (db : DBState) (T : String) :
    (execute_insert_template db T).substitutes = db.substitutes := by
  unfold execute_insert_template; split <;> rfl

theorem eit_of_exists {db : DBState} {T : String} (h : templateExists db T = true) :
    execute_insert_template db T = db := by
  unfold execute_insert_template; simp [h]

theorem eit_templates_of_absent {db : DBState} {T : String} (h : templateExists db T = false) :
    (execute_insert_template db T).templates = db.templates ++ [(db.nextTemplateId, T)] := by
  unfold execute_insert_template; simp [h]

theorem find?_templates_none {db : DBState} {T : String} (h : templateExists db T = false) :
    db.templates.find? (fun t => t.2 == T) = none := by
  rw [List.find?_eq_none]
  intro t ht
  simp only [beq_iff_eq]
  intro he
  have hx : templateExists db T = true := templateExists_iff.mpr ⟨t, ht, he⟩
  rw [h] at hx
  exact Bool.false_ne_true hx

theorem eit_find_of_absent {db : DBState} {T : String} (h : templateExists db T = false) :
    find_template_id (execute_insert_template db T) T = .ok db.nextTemplateId := by
  unfold find_template_id
  rw [eit_templates_of_absent h, List.find?_append, find?_templates_none h]
  simp

theorem find_template_id_isOk {db : DBState} {T : String} (h : templateExists db T = true) :
    ∃ tid, find_template_id db T = .ok tid := by
  rcases templateExists_iff.mp h with ⟨t, ht, he⟩
  unfold find_template_id
  cases hf : db.templates.find? (fun u => u.2 == T) with
  | none =>
    rw [List.find?_eq_none] at hf
    exact absurd (by simpa using he) (hf t ht)
  | some u => exact ⟨u.1, rfl⟩

theorem currentSubs_eq_subsOf {db : DBState} {T : String} {tid : Nat}
    (h : find_template_id db T = .ok tid) : currentSubs db T = subsOf db tid := by
  unfold find_template_id at h
  unfold currentSubs
  cases hf : db.templates.find? (fun t => t.2 == T) with
  | none => rw [hf] at h; exact absurd h (by simp)
  | some t =>
    rw [hf] at h
    have ht : t.1 = tid := by simpa using h
    show subsOf db t.1 = subsOf db tid
    rw [ht]

theorem currentSubs_of_absent {db : DBState} {T : String}
    (h : templateExists db T = false) : currentSubs db T = [] := by
  unfold currentSubs
  rw [find?_templates_none h]

theorem subsOf_eq_of_substitutes {db1 db2 : DBState} (h : db1.substitutes = db2.substitutes)
    (tid : Nat) : subsOf db1 tid = subsOf db2 tid := by
  unfold subsOf; rw [h]

theorem subsOf_nil_of_fresh {db : DBState} (hwf : WF db) :
    subsOf db db.nextTemplateId = [] := by
  cases hs : subsOf db db.nextTemplateId with
  | nil => rfl
  | cons a l =>
    exfalso
    have ha : a ∈ subsOf db db.nextTemplateId := by rw [hs]; exact List.mem_cons_self a l
    rcases mem_subsOf.mp ha with ⟨r, hr, _, h2⟩
    rcases hwf.ref r hr with ⟨t, ht, hid⟩
    have hlt := hwf.tmplFresh t ht
    rw [hid, h2] at hlt
    exact lt_irrefl _ hlt

theorem subsOf_nodup {db : DBState} (h : (db.substitutes.map pairKey).Nodup) (tid : Nat) :
    (subsOf db tid).Nodup := by
  have hrw : subsOf db tid
      = ((db.substitutes.filter (fun r => r.2.2 == tid)).map pairKey).map Prod.fst := by
    unfold subsOf
    rw [List.map_map]
    rfl
  rw [hrw]
  have hnd : ((db.substitutes.filter (fun r => r.2.2 == tid)).map pairKey).Nodup :=
    ((List.filter_sublist _).map pairKey).nodup h
  refine List.Nodup.map_on ?_ hnd
  intro p hp q hq hfst
  rcases List.mem_map.mp hp with ⟨r, hr, hpr⟩
  rcases List.mem_map.mp hq with ⟨u, hu, hqu⟩
  have hp2 : p.2 = tid := by
    rw [← hpr]
    exact by simpa using (List.mem_filter.mp hr).2
  have hq2 : q.2 = tid := by
    rw [← hqu]
    exact by simpa using (List.mem_filter.mp hu).2
  exact Prod.ext hfst (hp2.trans hq2.symm)

/-! ### The `ORDER BY LOWER(name)` comparison -/

theorem lowerLe_trans : ∀ a b c : String,
    lowerLe a b = true → lowerLe b c = true → lowerLe a c = true := by
  intro a b c hab hbc
  simp only [lowerLe, decide_eq_true_eq] at hab hbc ⊢
  exact le_trans hab hbc

theorem lowerLe_total : ∀ a b : String, lowerLe a b || lowerLe b a := by
  intro a b
  simp only [lowerLe]
  rcases le_total a.toLower b.toLower with h | h <;> simp [h]

/-! ### `insert_subs` assembled -/

theorem insert_subs_eq {db : DBState} {T : String} {S : List String} {tid : Nat}
    (hfind : find_template_id (execute_insert_template db T) T = .ok tid) :
    insert_subs db T (some S)
      = (.ok (execute_insert_subs (execute_insert_template db T) tid S).1,
         (execute_insert_subs (execute_insert_template db T) tid S).2) := by
  simp only [insert_subs]
  rw [hfind]

theorem get_after_insert_core (db1 : DBState) (T : String) (S : List String) (tid : Nat)
    (hfind : find_template_id db1 T = .ok tid)
    (hnil : subsOf db1 tid = [])
    (hpairs : (db1.substitutes.map pairKey).Nodup) :
    ∃ r, get_subs (execute_insert_subs db1 tid S).2 T = .ok r ∧
      r.Nodup ∧ (∀ x, x ∈ r ↔ x ∈ S) ∧
      r.Pairwise (fun a b => a.toLower ≤ b.toLower) := by
  have hfind2 : find_template_id (execute_insert_subs db1 tid S).2 T = .ok tid := by
    unfold find_template_id at hfind ⊢
    rw [eis_templates]
    exact hfind
  unfold get_subs
  rw [hfind2]
  refine ⟨_, rfl, ?_, ?_, ?_⟩
  · have hnd := subsOf_nodup (eis_pairs_nodup tid S db1 hpairs) tid
    exact ((List.mergeSort_perm _ lowerLe).nodup_iff).mpr hnd
  · intro x
    rw [List.mem_mergeSort, eis_mem_subsOf, hnil]
    simp
  · have hs := @List.sorted_mergeSort String lowerLe lowerLe_trans lowerLe_total
      (subsOf (execute_insert_subs db1 tid S).2 tid)
    exact hs.imp (fun h => by simpa [lowerLe, decide_eq_true_eq] using h)

/-- C1: for every template name T and substitute sequence S, starting from a
well-formed store in which T has no substitutes, `insert_subs T (some S)`
followed by `get_subs T` returns exactly the distinct elements of S, sorted
ascending by lowercased (case-insensitive) lexicographic comparison,
regardless of S's order or internal duplicates. -/
theorem insert_subs_then_get_subs (db : DBState) (T : String) (S : List String)
    (hwf : WF db) (hempty : currentSubs db T = []) :
    ∃ r, get_subs (insert_subs db T (some S)).2 T = .ok r ∧
      r.Nodup ∧ (∀ x, x ∈ r ↔ x ∈ S) ∧
      r.Pairwise (fun a b => a.toLower ≤ b.toLower) := by
  by_cases hex : templateExists db T = true
  · rcases find_template_id_isOk hex with ⟨tid, hfind⟩
    have hnil : subsOf db tid = [] := by rw [← currentSubs_eq_subsOf hfind]; exact hempty
    have hfind' : find_template_id (execute_insert_template db T) T = .ok tid := by
      rw [eit_of_exists hex]; exact hfind
    rw [insert_subs_eq hfind']
    rw [eit_of_exists hex]
    exact get_after_insert_core db T S tid hfind hnil hwf.subPairs
  · have hex' : templateExists db T = false := by simpa using hex
    have hfind := eit_find_of_absent hex'
    have hnil : subsOf (execute_insert_template db T) db.nextTemplateId = [] := by
      rw [subsOf_eq_of_substitutes (eit_substitutes db T) db.nextTemplateId]
      exact subsOf_nil_of_fresh hwf
    have hpairs : ((execute_insert_template db T).substitutes.map pairKey).Nodup := by
      rw [eit_substitutes]
      exact hwf.subPairs
    rw [insert_subs_eq hfind]
    exact get_after_insert_core _ T S _ hfind hnil hpairs

/-- Witness for C1 at a concrete input. -/
theorem insert_subs_then_get_subs_witness :
    ∃ r, get_subs (insert_subs from_path "noun" (some ["cat", "Ape", "cat"])).2 "noun" = .ok r ∧
      r.Nodup ∧ (∀ x, x ∈ r ↔ x ∈ ["cat", "Ape", "cat"]) ∧
      r.Pairwise (fun a b => a.toLower ≤ b.toLower) :=
  insert_subs_then_get_subs from_path "noun" ["cat", "Ape", "cat"] wf_from_path rfl

theorem templateExists_eq_of_templates {db1 db2 : DBState}
    (h : db1.templates = db2.templates) (T : String) :
    templateExists db1 T = templateExists db2 T := by
  unfold templateExists; rw [h]

theorem find_template_id_eq_of_templates {db1 db2 : DBState}
    (h : db1.templates = db2.templates) (T : String) :
    find_template_id db1 T = find_template_id db2 T := by
  unfold find_template_id; rw [h]

theorem insert_subs_setup (db : DBState) (T : String) (hwf : WF db) :
    ∃ tid, find_template_id (execute_insert_template db T) T = .ok tid ∧
      (∀ x, x ∈ subsOf (execute_insert_template db T) tid ↔ x ∈ currentSubs db T) ∧
      templateExists (execute_insert_template db T) T = true := by
  by_cases hex : templateExists db T = true
  · rcases find_template_id_isOk hex with ⟨tid, hfind⟩
    refine ⟨tid, by rw [eit_of_exists hex]; exact hfind, ?_, by rw [eit_of_exists hex]; exact hex⟩
    intro x
    rw [eit_of_exists hex, currentSubs_eq_subsOf hfind]
  · have hex' : templateExists db T = false := by simpa using hex
    refine ⟨db.nextTemplateId, eit_find_of_absent hex', ?_, ?_⟩
    · intro x
      rw [subsOf_eq_of_substitutes (eit_substitutes db T) _, subsOf_nil_of_fresh hwf,
          currentSubs_of_absent hex']
    · refine templateExists_iff.mpr ⟨(db.nextTemplateId, T), ?_, rfl⟩
      rw [eit_templates_of_absent hex']
      simp

/-- C2: `insert_subs T (some S)` is idempotent (a second identical call leaves
the store exactly as it was and reports an empty change record), and the change
record of the first call lists exactly the previously-absent substitutes, in
caller order and without duplicates. -/
theorem insert_subs_idem (db : DBState) (T : String) (S : List String) (hwf : WF db) :
    ∃ log1, (insert_subs db T (some S)).1 = .ok log1 ∧
      insert_subs (insert_subs db T (some S)).2 T (some S)
        = (.ok [], (insert_subs db T (some S)).2) ∧
      log1.Sublist S ∧ log1.Nodup ∧
      (∀ x, x ∈ log1 ↔ x ∈ S ∧ x ∉ currentSubs db T) := by
  rcases insert_subs_setup db T hwf with ⟨tid, hfind, hiff, hex1⟩
  rw [insert_subs_eq hfind]
  refine ⟨(execute_insert_subs (execute_insert_template db T) tid S).1, rfl, ?_,
    eis_log_sublist tid S _, eis_log_nodup tid S _, ?_⟩
  · have htmpl : (execute_insert_subs (execute_insert_template db T) tid S).2.templates
        = (execute_insert_template db T).templates := eis_templates tid S _
    have hex2 : templateExists (execute_insert_subs (execute_insert_template db T) tid S).2 T
        = true := by
      rw [templateExists_eq_of_templates htmpl]
      exact hex1
    have hfind2 : find_template_id (execute_insert_subs (execute_insert_template db T) tid S).2 T
        = .ok tid := by
      rw [find_template_id_eq_of_templates htmpl]
      exact hfind
    have hfind2' : find_template_id
        (execute_insert_template (execute_insert_subs (execute_insert_template db T) tid S).2 T) T
        = .ok tid := by
      rw [eit_of_exists hex2]
      exact hfind2
    have hall : ∀ x ∈ S, x ∈ subsOf (execute_insert_subs (execute_insert_template db T) tid S).2 tid := by
      intro x hx
      rw [eis_mem_subsOf]
      exact Or.inr ⟨rfl, hx⟩
    rw [insert_subs_eq hfind2', eit_of_exists hex2, eis_noop tid S _ hall]
  · intro x
    rw [eis_log_mem tid S _ x]
    constructor
    · rintro ⟨h1, h2⟩
      exact ⟨h1, fun hc => h2 ((hiff x).mpr hc)⟩
    · rintro ⟨h1, h2⟩
      exact ⟨h1, fun hc => h2 ((hiff x).mp hc)⟩

/-- Witness for C2 at a concrete input. -/
theorem insert_subs_idem_witness :
    ∃ log1, (insert_subs from_path "noun" (some ["cat", "dog"])).1 = .ok log1 ∧
      insert_subs (insert_subs from_path "noun" (some ["cat", "dog"])).2 "noun" (some ["cat", "dog"])
        = (.ok [], (insert_subs from_path "noun" (some ["cat", "dog"])).2) ∧
      log1.Sublist ["cat", "dog"] ∧ log1.Nodup ∧
      (∀ x, x ∈ log1 ↔ x ∈ ["cat", "dog"] ∧ x ∉ currentSubs from_path "noun") :=
  insert_subs_idem from_path "noun" ["cat", "dog"] wf_from_path

/-! ### Blank template names (insert_subs applies no special policy to them) -/

theorem mem_get_templates {db : DBState} {x : String} :
    x ∈ get_templates db ↔ ∃ t ∈ db.templates, t.2 = x := by
  unfold get_templates
  rw [List.mem_mergeSort, List.mem_map]

theorem templateExists_after_eit (db : DBState) (T : String) :
    templateExists (execute_insert_template db T) T = true := by
  by_cases hex : templateExists db T = true
  · rw [eit_of_exists hex]; exact hex
  · have hex' : templateExists db T = false := by simpa using hex
    refine templateExists_iff.mpr ⟨(db.nextTemplateId, T), ?_, rfl⟩
    rw [eit_templates_of_absent hex']
    simp

/-- C3 counterexample: on the code, `insert_subs` with the empty-string
template name does create a template row, so `get_templates` afterwards does
contain `""` — refuting the claimed silent rejection at this input. -/
theorem insert_subs_empty_name_counterexample :
    "" ∈ get_templates (insert_subs from_path "" none).2 := by
  have h : (insert_subs from_path "" none).2 = execute_insert_template from_path "" := rfl
  rw [h]
  rcases templateExists_iff.mp (templateExists_after_eit from_path "") with ⟨t, ht, hname⟩
  exact mem_get_templates.mpr ⟨t, ht, hname⟩

/-- C3 amended: `insert_subs` applies no special policy to a blank template
name; like any other name, the empty-string template row is created (or kept)
and `get_templates` afterwards contains the empty string. -/
theorem insert_subs_empty_name_creates_row (db : DBState) (subs : Option (List String)) :
    "" ∈ get_templates (insert_subs db "" subs).2 := by
  have hex1 := templateExists_after_eit db ""
  cases subs with
  | none =>
    have h : (insert_subs db "" none).2 = execute_insert_template db "" := rfl
    rw [h]
    rcases templateExists_iff.mp hex1 with ⟨t, ht, hname⟩
    exact mem_get_templates.mpr ⟨t, ht, hname⟩
  | some S =>
    rcases find_template_id_isOk hex1 with ⟨tid, hfind⟩
    rw [insert_subs_eq hfind]
    rcases templateExists_iff.mp hex1 with ⟨t, ht, hname⟩
    refine mem_get_templates.mpr ⟨t, ?_, hname⟩
    rw [eis_templates]
    exact ht

/-! ### `removeSubRow` and the `remove_subs` loop -/

theorem removeSubRow_templates (db : DBState) (tid : Nat) (s : String) :
    (removeSubRow db tid s).2.templates = db.templates := rfl

theorem removeSubRow_subs (db : DBState) (tid : Nat) (s : String) :
    (removeSubRow db tid s).2.substitutes
      = db.substitutes.filter (fun r => !(r.2.2 == tid && r.2.1 == s)) := rfl

theorem removeSubRow_fst (db : DBState) (tid : Nat) (s : String) :
    (removeSubRow db tid s).1 = subPresent db tid s := by
  cases hp : subPresent db tid s with
  | false =>
    have hnil : db.substitutes.filter (fun r => r.2.2 == tid && r.2.1 == s) = [] := by
      rw [List.filter_eq_nil_iff]
      intro r hr
      simp only [Bool.and_eq_true, beq_iff_eq, not_and]
      intro h2 h1
      exact (subPresent_eq_false_iff.mp hp) (mem_subsOf.mpr ⟨r, hr, h1, h2⟩)
    simp only [removeSubRow]
    rw [hnil]
    simp
  | true =>
    rcases mem_subsOf.mp (subPresent_iff.mp hp) with ⟨r, hr, h1, h2⟩
    have hmem : r ∈ db.substitutes.filter (fun u => u.2.2 == tid && u.2.1 == s) :=
      List.mem_filter.mpr ⟨hr, by simp [h1, h2]⟩
    have hpos := List.length_pos_of_mem hmem
    simp only [removeSubRow]
    simp [hpos]

theorem mem_subsOf_removeSubRow {db : DBState} {tid : Nat} {s : String}
    (tid' : Nat) (x : String) :
    x ∈ subsOf (removeSubRow db tid s).2 tid' ↔
      x ∈ subsOf db tid' ∧ ¬(tid' = tid ∧ x = s) := by
  rw [mem_subsOf, mem_subsOf]
  simp only [removeSubRow_subs, List.mem_filter]
  constructor
  · rintro ⟨r, ⟨hr, hpred⟩, h1, h2⟩
    refine ⟨⟨r, hr, h1, h2⟩, ?_⟩
    rintro ⟨ha, hb⟩
    rw [ha] at h2
    rw [hb] at h1
    simp [h1, h2] at hpred
  · rintro ⟨⟨r, hr, h1, h2⟩, hn⟩
    refine ⟨r, ⟨hr, ?_⟩, h1, h2⟩
    have hc : ¬(r.2.2 = tid ∧ r.2.1 = s) := by
      rintro ⟨ha, hb⟩
      exact hn ⟨h2.symm.trans ha, h1.symm.trans hb⟩
    simp only [Bool.not_eq_eq_eq_not, Bool.not_true, Bool.and_eq_false_iff]
    by_cases ha : r.2.2 = tid
    · right
      simp only [beq_eq_false_iff_ne, ne_eq]
      exact fun hb => hc ⟨ha, hb⟩
    · left
      simp only [beq_eq_false_iff_ne, ne_eq]
      exact ha

theorem ers_templates (tid : Nat) (S : List String) :
    ∀ db : DBState, (execute_remove_subs db tid S).2.templates = db.templates := by
  induction S with
  | nil => intro db; rfl
  | cons s rest ih =>
    intro db
    simp only [execute_remove_subs]
    rw [ih, removeSubRow_templates]

theorem ers_mem_subsOf (tid : Nat) (S : List String) :
    ∀ (db : DBState) (tid' : Nat) (x : String),
      x ∈ subsOf (execute_remove_subs db tid S).2 tid' ↔
        x ∈ subsOf db tid' ∧ ¬(tid' = tid ∧ x ∈ S) := by
  induction S with
  | nil => intro db tid' x; simp [execute_remove_subs]
  | cons s rest ih =>
    intro db tid' x
    simp only [execute_remove_subs]
    rw [ih, mem_subsOf_removeSubRow]
    simp only [List.mem_cons]
    tauto

theorem ers_log_mem (tid : Nat) (S : List String) :
    ∀ (db : DBState) (x : String),
      x ∈ (execute_remove_subs db tid S).1 ↔ x ∈ S ∧ x ∈ subsOf db tid := by
  induction S with
  | nil => intro db x; simp [execute_remove_subs]
  | cons s rest ih =>
    intro db x
    simp only [execute_remove_subs]
    rw [removeSubRow_fst]
    have hmemdb1 : ∀ y, y ∈ subsOf (removeSubRow db tid s).2 tid ↔
        y ∈ subsOf db tid ∧ y ≠ s := by
      intro y
      rw [mem_subsOf_removeSubRow]
      tauto
    cases hp : subPresent db tid s with
    | true =>
      rw [if_pos rfl]
      simp only [List.mem_cons]
      rw [ih, hmemdb1]
      have hs : s ∈ subsOf db tid := subPresent_iff.mp hp
      constructor
      · rintro (rfl | ⟨hx, hy, _⟩)
        · exact ⟨Or.inl rfl, hs⟩
        · exact ⟨Or.inr hx, hy⟩
      · rintro ⟨hx | hx, hy⟩
        · exact Or.inl hx
        · by_cases hxs : x = s
          · exact Or.inl hxs
          · exact Or.inr ⟨hx, hy, hxs⟩
    | false =>
      rw [if_neg Bool.false_ne_true]
      simp only [List.mem_cons]
      rw [ih, hmemdb1]
      have hs : s ∉ subsOf db tid := subPresent_eq_false_iff.mp hp
      constructor
      · rintro ⟨hx, hy, _⟩
        exact ⟨Or.inr hx, hy⟩
      · rintro ⟨hx | hx, hy⟩
        · exact absurd (hx ▸ hy) hs
        · refine ⟨hx, hy, ?_⟩
          rintro rfl
          exact hs hy

theorem ers_log_sublist (tid : Nat) (S : List String) :
    ∀ db : DBState, (execute_remove_subs db tid S).1.Sublist S := by
  induction S with
  | nil => intro db; simp [execute_remove_subs]
  | cons s rest ih =>
    intro db
    simp only [execute_remove_subs]
    split
    · exact (ih _).cons₂ s
    · exact (ih _).cons s

theorem ers_log_nodup (tid : Nat) (S : List String) :
    ∀ db : DBState, (execute_remove_subs db tid S).1.Nodup := by
  induction S with
  | nil => intro db; simp [execute_remove_subs]
  | cons s rest ih =>
    intro db
    simp only [execute_remove_subs]
    split
    · refine List.Nodup.cons ?_ (ih _)
      intro hmem
      have hx := (ers_log_mem tid rest _ s).mp hmem
      have := (mem_subsOf_removeSubRow tid s).mp hx.2
      exact this.2 ⟨rfl, rfl⟩
    · exact ih _

theorem ers_subs_subset (tid : Nat) (S : List String) :
    ∀ db : DBState, ∀ r ∈ (execute_remove_subs db tid S).2.substitutes,
      r ∈ db.substitutes := by
  induction S with
  | nil => intro db r hr; exact hr
  | cons s rest ih =>
    intro db r hr
    simp only [execute_remove_subs] at hr
    have hr1 := ih _ r hr
    rw [removeSubRow_subs] at hr1
    exact (List.mem_filter.mp hr1).1

theorem remove_subs_eq {db : DBState} {T : String} {S : List String} {tid : Nat}
    (hfind : find_template_id db T = .ok tid) :
    remove_subs db T S
      = (.ok (execute_remove_subs db tid S).1, (execute_remove_subs db tid S).2) := by
  unfold remove_subs
  rw [hfind]

theorem remove_subs_err {db : DBState} {T : String} {S : List String}
    (h : templateExists db T = false) :
    remove_subs db T S = (.error .queryReturnedNoRows, db) := by
  unfold remove_subs
  rw [find_template_id_none h]

/-- C4: on an existing template, `remove_subs` deletes exactly the supplied
substitutes that are present (silently skipping absent ones) and returns the
order-preserving subsequence of the input that was actually removed; on a
missing template it fails with the NotFound error and leaves the store
untouched. -/
theorem remove_subs_spec (db : DBState) (T : String) (S : List String) :
    (templateExists db T = false → remove_subs db T S = (.error .queryReturnedNoRows, db)) ∧
    (templateExists db T = true →
      ∃ removed, (remove_subs db T S).1 = .ok removed ∧
        removed.Sublist S ∧ removed.Nodup ∧
        (∀ x, x ∈ removed ↔ x ∈ S ∧ x ∈ currentSubs db T) ∧
        (∀ x, x ∈ currentSubs (remove_subs db T S).2 T ↔ x ∈ currentSubs db T ∧ x ∉ S)) := by
  constructor
  · intro h
    exact remove_subs_err h
  · intro h
    rcases find_template_id_isOk h with ⟨tid, hfind⟩
    have h1 : (remove_subs db T S).1 = .ok (execute_remove_subs db tid S).1 := by
      rw [remove_subs_eq hfind]
    have h2 : (remove_subs db T S).2 = (execute_remove_subs db tid S).2 := by
      rw [remove_subs_eq hfind]
    rw [h1, h2]
    refine ⟨_, rfl, ers_log_sublist tid S db, ers_log_nodup tid S db, ?_, ?_⟩
    · intro x
      rw [ers_log_mem tid S db x, currentSubs_eq_subsOf hfind]
    · intro x
      have hfind2 : find_template_id (execute_remove_subs db tid S).2 T = .ok tid := by
        rw [find_template_id_eq_of_templates (ers_templates tid S db) T]
        exact hfind
      rw [currentSubs_eq_subsOf hfind2, currentSubs_eq_subsOf hfind, ers_mem_subsOf]
      tauto

/-- Witness for C4 at a concrete input (the spec's own end-to-end scenario). -/
theorem remove_subs_spec_witness :
    ∃ removed,
      (remove_subs (insert_subs from_path "verb" (some ["run", "jump"])).2 "verb"
        ["jump", "missing"]).1 = .ok removed ∧
      removed.Sublist ["jump", "missing"] ∧ removed.Nodup ∧
      (∀ x, x ∈ removed ↔ x ∈ ["jump", "missing"] ∧
        x ∈ currentSubs (insert_subs from_path "verb" (some ["run", "jump"])).2 "verb") ∧
      (∀ x, x ∈ currentSubs
          (remove_subs (insert_subs from_path "verb" (some ["run", "jump"])).2 "verb"
            ["jump", "missing"]).2 "verb" ↔
        x ∈ currentSubs (insert_subs from_path "verb" (some ["run", "jump"])).2 "verb" ∧
        x ∉ ["jump", "missing"]) :=
  (remove_subs_spec (insert_subs from_path "verb" (some ["run", "jump"])).2 "verb"
    ["jump", "missing"]).2 rfl

/-! ### `rename_template` -/

theorem matched_tmpl_ne_zero {db : DBState} {T : String} (h : templateExists db T = true) :
    (db.templates.filter (fun t => t.2 == T)).length ≠ 0 := by
  rcases templateExists_iff.mp h with ⟨t, ht, he⟩
  have hmem : t ∈ db.templates.filter (fun u => u.2 == T) :=
    List.mem_filter.mpr ⟨ht, by simp [he]⟩
  have := List.length_pos_of_mem hmem
  omega

theorem matched_tmpl_nil {db : DBState} {T : String} (h : templateExists db T = false) :
    db.templates.filter (fun t => t.2 == T) = [] := by
  rw [List.filter_eq_nil_iff]
  intro t ht
  simp only [beq_iff_eq]
  intro he
  have hx : templateExists db T = true := templateExists_iff.mpr ⟨t, ht, he⟩
  rw [h] at hx
  exact Bool.false_ne_true hx

/-- C5: `rename_template` returns false when the old name does not exist;
renaming onto a different, already-taken name fails with the constraint
violation and rolls back (the store, hence `get_templates`, is unchanged and
still holds the old name); otherwise it renames and returns true. -/
theorem rename_template_spec (db : DBState) (oldT newT : String) :
    (templateExists db oldT = false → rename_template db oldT newT = (.ok false, db)) ∧
    (templateExists db oldT = true → templateExists db newT = true → newT ≠ oldT →
      rename_template db oldT newT = (.error .constraintViolation, db) ∧
      oldT ∈ get_templates db) ∧
    (templateExists db oldT = true → (newT = oldT ∨ templateExists db newT = false) →
      (rename_template db oldT newT).1 = .ok true ∧
      newT ∈ get_templates (rename_template db oldT newT).2) := by
  refine ⟨?_, ?_, ?_⟩
  · intro h
    simp only [rename_template]
    rw [matched_tmpl_nil h]
    simp
  · intro hold hnew hne
    have hm := matched_tmpl_ne_zero hold
    constructor
    · simp only [rename_template]
      rw [if_neg (by simpa using hm), if_pos (by simp [bne_iff_ne, hne, hnew])]
    · rcases templateExists_iff.mp hold with ⟨t, ht, he⟩
      exact mem_get_templates.mpr ⟨t, ht, he⟩
  · intro hold hok
    have hm := matched_tmpl_ne_zero hold
    have hcond : (newT != oldT && templateExists db newT) = false := by
      rcases hok with h | h
      · simp [h]
      · simp [h]
    simp only [rename_template]
    rw [if_neg (by simpa using hm), if_neg (by simp [hcond])]
    constructor
    · have : 0 < (db.templates.filter (fun t => t.2 == oldT)).length := by omega
      simp [this]
    · rcases templateExists_iff.mp hold with ⟨t, ht, he⟩
      refine mem_get_templates.mpr ⟨(t.1, newT), ?_, rfl⟩
      refine List.mem_map.mpr ⟨t, ht, ?_⟩
      simp [he]

/-- Witness for C5 at a concrete input: renaming onto an existing name
conflicts and leaves the store unchanged. -/
theorem rename_template_spec_witness :
    rename_template (insert_subs (insert_subs from_path "noun" none).2 "verb" none).2
        "noun" "verb"
      = (.error .constraintViolation,
         (insert_subs (insert_subs from_path "noun" none).2 "verb" none).2) ∧
    "noun" ∈ get_templates (insert_subs (insert_subs from_path "noun" none).2 "verb" none).2 :=
  (rename_template_spec (insert_subs (insert_subs from_path "noun" none).2 "verb" none).2
    "noun" "verb").2.1 rfl rfl (by decide)

/-! ### `rename_substitute` -/

theorem matched_sub_ne_zero {db : DBState} {tid : Nat} {s : String} (h : s ∈ subsOf db tid) :
    (db.substitutes.filter (fun r => r.2.1 == s && r.2.2 == tid)).length ≠ 0 := by
  rcases mem_subsOf.mp h with ⟨r, hr, h1, h2⟩
  have hmem : r ∈ db.substitutes.filter (fun u => u.2.1 == s && u.2.2 == tid) :=
    List.mem_filter.mpr ⟨hr, by simp [h1, h2]⟩
  have := List.length_pos_of_mem hmem
  omega

theorem matched_sub_nil {db : DBState} {tid : Nat} {s : String} (h : s ∉ subsOf db tid) :
    db.substitutes.filter (fun r => r.2.1 == s && r.2.2 == tid) = [] := by
  rw [List.filter_eq_nil_iff]
  intro r hr
  simp only [Bool.and_eq_true, beq_iff_eq, not_and]
  intro h1 h2
  exact absurd (mem_subsOf.mpr ⟨r, hr, h1, h2⟩) h

theorem rename_substitute_nomatch {db : DBState} {T oldS : String} (newS : String) {tid : Nat}
    (hfind : find_template_id db T = .ok tid) (hm : oldS ∉ subsOf db tid) :
    rename_substitute db T oldS newS = (.ok false, db) := by
  simp only [rename_substitute, hfind]
  rw [matched_sub_nil hm]
  simp

theorem rename_substitute_conflict {db : DBState} {T oldS newS : String} {tid : Nat}
    (hfind : find_template_id db T = .ok tid) (hm : oldS ∈ subsOf db tid)
    (hnew : newS ∈ subsOf db tid) (hne : newS ≠ oldS) :
    rename_substitute db T oldS newS = (.error .constraintViolation, db) := by
  simp only [rename_substitute, hfind]
  rw [if_neg (by simp only [beq_iff_eq]; exact matched_sub_ne_zero hm)]
  rw [if_pos (by simp [bne_iff_ne, hne, subPresent_iff.mpr hnew])]

theorem rename_substitute_success {db : DBState} {T oldS newS : String} {tid : Nat}
    (hfind : find_template_id db T = .ok tid) (hm : oldS ∈ subsOf db tid)
    (hcond : (newS != oldS && subPresent db tid newS) = false) :
    rename_substitute db T oldS newS = (.ok true, rsubState db tid oldS newS) := by
  simp only [rename_substitute, hfind]
  rw [if_neg (by simp only [beq_iff_eq]; exact matched_sub_ne_zero hm)]
  rw [if_neg (by simp [hcond])]
  have hpos : 0 < (db.substitutes.filter (fun r => r.2.1 == oldS && r.2.2 == tid)).length := by
    have := matched_sub_ne_zero hm
    omega
  simp [hpos]

theorem rsubState_templates (db : DBState) (tid : Nat) (oldS newS : String) :
    (rsubState db tid oldS newS).templates = db.templates := rfl

theorem rsubState_mem_new {db : DBState} {tid : Nat} {oldS : String} (newS : String)
    (hm : oldS ∈ subsOf db tid) : newS ∈ subsOf (rsubState db tid oldS newS) tid := by
  rcases mem_subsOf.mp hm with ⟨r, hr, h1, h2⟩
  refine mem_subsOf.mpr ⟨(r.1, newS, r.2.2), ?_, rfl, h2⟩
  refine List.mem_map.mpr ⟨r, hr, ?_⟩
  simp [h1, h2]

theorem rsubState_not_mem_old {db : DBState} {tid : Nat} {oldS newS : String}
    (hne : newS ≠ oldS) : oldS ∉ subsOf (rsubState db tid oldS newS) tid := by
  intro hc
  rcases mem_subsOf.mp hc with ⟨u, hu, hu1, hu2⟩
  rcases List.mem_map.mp hu with ⟨v, hv, huv⟩
  by_cases hvp : (v.2.1 == oldS && v.2.2 == tid) = true
  · rw [if_pos hvp] at huv
    rw [← huv] at hu1
    exact hne hu1
  · rw [if_neg hvp] at huv
    rw [huv] at hvp
    simp only [Bool.and_eq_true, beq_iff_eq] at hvp
    exact hvp ⟨hu1, hu2⟩

/-- C6: `rename_substitute` fails with NotFound when the template is absent;
renaming a present substitute onto a different, already-present substitute of
the same template fails with the constraint violation and leaves the store
unchanged; otherwise it returns whether a row matched, and on a match the new
name is stored in place of the old one. -/
theorem rename_substitute_spec (db : DBState) (T oldS newS : String) :
    (templateExists db T = false →
      rename_substitute db T oldS newS = (.error .queryReturnedNoRows, db)) ∧
    (oldS ∈ currentSubs db T → newS ∈ currentSubs db T → newS ≠ oldS →
      rename_substitute db T oldS newS = (.error .constraintViolation, db)) ∧
    (templateExists db T = true → (newS = oldS ∨ newS ∉ currentSubs db T) →
      (rename_substitute db T oldS newS).1 = .ok (decide (oldS ∈ currentSubs db T)) ∧
      (oldS ∈ currentSubs db T →
        newS ∈ currentSubs (rename_substitute db T oldS newS).2 T ∧
        (newS = oldS ∨ oldS ∉ currentSubs (rename_substitute db T oldS newS).2 T))) := by
  refine ⟨?_, ?_, ?_⟩
  · intro h
    unfold rename_substitute
    rw [find_template_id_none h]
  · intro hold hnew hne
    have hex : templateExists db T = true := by
      by_cases hex : templateExists db T = true
      · exact hex
      · rw [currentSubs_of_absent (by simpa using hex)] at hold
        exact absurd hold (List.not_mem_nil oldS)
    rcases find_template_id_isOk hex with ⟨tid, hfind⟩
    rw [currentSubs_eq_subsOf hfind] at hold hnew
    exact rename_substitute_conflict hfind hold hnew hne
  · intro hex hok
    rcases find_template_id_isOk hex with ⟨tid, hfind⟩
    rw [currentSubs_eq_subsOf hfind] at hok ⊢
    by_cases hm : oldS ∈ subsOf db tid
    · have hcond : (newS != oldS && subPresent db tid newS) = false := by
        rcases hok with h | h
        · simp [h]
        · simp [subPresent_eq_false_iff.mpr h]
      have e1 : (rename_substitute db T oldS newS).1 = .ok true := by
        rw [rename_substitute_success hfind hm hcond]
      have e2 : (rename_substitute db T oldS newS).2 = rsubState db tid oldS newS := by
        rw [rename_substitute_success hfind hm hcond]
      rw [e1, e2]
      have hfind2 : find_template_id (rsubState db tid oldS newS) T = .ok tid := by
        rw [find_template_id_eq_of_templates (rsubState_templates db tid oldS newS) T]
        exact hfind
      rw [currentSubs_eq_subsOf hfind2]
      constructor
      · simp [hm]
      · intro _
        refine ⟨rsubState_mem_new newS hm, ?_⟩
        by_cases hns : newS = oldS
        · exact Or.inl hns
        · exact Or.inr (rsubState_not_mem_old hns)
    · have e1 : (rename_substitute db T oldS newS).1 = .ok false := by
        rw [rename_substitute_nomatch newS hfind hm]
      rw [e1]
      constructor
      · simp [hm]
      · intro hc
        exact absurd hc hm

/-- Witness for C6 at a concrete input: renaming a substitute onto an existing
one of the same template conflicts. -/
theorem rename_substitute_spec_witness :
    rename_substitute (insert_subs from_path "noun" (some ["cat", "dog"])).2 "noun" "cat" "dog"
      = (.error .constraintViolation, (insert_subs from_path "noun" (some ["cat", "dog"])).2) :=
  (rename_substitute_spec (insert_subs from_path "noun" (some ["cat", "dog"])).2
    "noun" "cat" "dog").2.1 (by decide) (by decide) (by decide)

/-! ### `remove_template` -/

theorem remove_template_ok {db : DBState} {T : String} {tid : Nat}
    (hfind : find_template_id db T = .ok tid) :
    remove_template db T
      = (.ok true,
         ⟨db.templates.filter (fun t => !(t.1 == tid)),
          db.substitutes.filter (fun r => !(r.2.2 == tid)),
          db.nextTemplateId, db.nextSubId⟩) := by
  simp only [remove_template, hfind]
  have hpos : 0 < (db.templates.filter (fun t => t.1 == tid)).length := by
    rcases find_template_id_ok hfind with ⟨t, ht, _, hid⟩
    exact List.length_pos_of_mem (List.mem_filter.mpr ⟨ht, by simp [hid]⟩)
  simp [hpos]

/-- C7: `remove_template` on a missing template fails with the NotFound error
and leaves the store unchanged; on an existing template it deletes exactly that
template's substitutes, then exactly its row, and returns true, so the name is
gone from `get_templates` while unrelated rows survive. -/
theorem remove_template_spec (db : DBState) (T : String) (hwf : WF db) :
    (templateExists db T = false → remove_template db T = (.error .queryReturnedNoRows, db)) ∧
    (∀ tid, find_template_id db T = .ok tid →
      (remove_template db T).1 = .ok true ∧
      T ∉ get_templates (remove_template db T).2 ∧
      (remove_template db T).2.substitutes = db.substitutes.filter (fun r => !(r.2.2 == tid)) ∧
      (remove_template db T).2.templates = db.templates.filter (fun t => !(t.1 == tid))) := by
  constructor
  · intro h
    unfold remove_template
    rw [find_template_id_none h]
  · intro tid hfind
    have e := remove_template_ok hfind
    have e1 : (remove_template db T).1 = .ok true := by rw [e]
    have e2 : (remove_template db T).2
        = ⟨db.templates.filter (fun t => !(t.1 == tid)),
           db.substitutes.filter (fun r => !(r.2.2 == tid)),
           db.nextTemplateId, db.nextSubId⟩ := by rw [e]
    refine ⟨e1, ?_, by rw [e2], by rw [e2]⟩
    intro hmem
    rcases mem_get_templates.mp hmem with ⟨t, ht, hname⟩
    rw [e2] at ht
    rcases List.mem_filter.mp ht with ⟨htdb, hpred⟩
    rcases find_template_id_ok hfind with ⟨t0, ht0, hname0, hid0⟩
    have heq : t = t0 :=
      List.inj_on_of_nodup_map hwf.tmplNames htdb ht0 (by rw [hname, hname0])
    rw [heq, hid0] at hpred
    simp at hpred

/-- Witness for C7 at a concrete input. -/
theorem remove_template_spec_witness :
    (remove_template (insert_subs from_path "noun" (some ["cat"])).2 "noun").1 = .ok true ∧
    "noun" ∉ get_templates (remove_template (insert_subs from_path "noun" (some ["cat"])).2 "noun").2 ∧
    (remove_template (insert_subs from_path "noun" (some ["cat"])).2 "noun").2.substitutes
      = (insert_subs from_path "noun" (some ["cat"])).2.substitutes.filter (fun r => !(r.2.2 == 1)) ∧
    (remove_template (insert_subs from_path "noun" (some ["cat"])).2 "noun").2.templates
      = (insert_subs from_path "noun" (some ["cat"])).2.templates.filter (fun t => !(t.1 == 1)) :=
  (remove_template_spec (insert_subs from_path "noun" (some ["cat"])).2 "noun"
    ⟨by decide, by decide, by decide, by decide, by unfold refInvariant; decide⟩).2 1 rfl

/-! ### `get_random_subs` -/

/-- C8: `get_random_subs` fails with NotFound when the template is absent,
returns the empty-string sentinel when the template has no substitutes, and for
any random choice returns a member of the substitute set otherwise. -/
theorem get_random_subs_spec (db : DBState) (T : String) :
    (templateExists db T = false →
      ∀ pick, get_random_subs db T pick = .error .queryReturnedNoRows) ∧
    (templateExists db T = true → currentSubs db T = [] →
      ∀ pick, get_random_subs db T pick = .ok "") ∧
    (templateExists db T = true → currentSubs db T ≠ [] →
      ∀ pick, ∃ s, get_random_subs db T pick = .ok s ∧ s ∈ currentSubs db T) := by
  refine ⟨?_, ?_, ?_⟩
  · intro h pick
    unfold get_random_subs
    rw [find_template_id_none h]
  · intro hex hnil pick
    rcases find_template_id_isOk hex with ⟨tid, hfind⟩
    rw [currentSubs_eq_subsOf hfind] at hnil
    simp only [get_random_subs, hfind]
    rw [if_pos (by simp [hnil])]
  · intro hex hne pick
    rcases find_template_id_isOk hex with ⟨tid, hfind⟩
    rw [currentSubs_eq_subsOf hfind] at hne ⊢
    simp only [get_random_subs, hfind]
    rw [if_neg (by simpa using hne)]
    refine ⟨_, rfl, ?_⟩
    have hlen : 0 < (subsOf db tid).length := List.length_pos.mpr hne
    have hidx : pick % (subsOf db tid).length < (subsOf db tid).length :=
      Nat.mod_lt _ hlen
    rw [List.getD_eq_getElem?_getD, List.getElem?_eq_getElem hidx]
    exact List.getElem_mem hidx

/-- Witness for C8 at a concrete input: the result is always drawn from the
substitute set. -/
theorem get_random_subs_spec_witness :
    ∃ s, get_random_subs (insert_subs from_path "noun" (some ["a", "b", "c"])).2 "noun" 7
        = .ok s ∧
      s ∈ currentSubs (insert_subs from_path "noun" (some ["a", "b", "c"])).2 "noun" :=
  (get_random_subs_spec (insert_subs from_path "noun" (some ["a", "b", "c"])).2 "noun").2.2
    rfl (by decide) 7

/-! ### Preservation of the referential invariant -/

theorem refInvariant_of (db' db : DBState) (h : refInvariant db)
    (hsub : ∀ r ∈ db'.substitutes, r ∈ db.substitutes)
    (htmpl : db'.templates = db.templates) : refInvariant db' := by
  intro r hr
  rw [htmpl]
  exact h r (hsub r hr)

theorem eit_ref {db : DBState} (T : String) (h : refInvariant db) :
    refInvariant (execute_insert_template db T) := by
  by_cases hex : templateExists db T = true
  · rw [eit_of_exists hex]; exact h
  · intro r hr
    rw [eit_substitutes db T] at hr
    rcases h r hr with ⟨t, ht, hid⟩
    refine ⟨t, ?_, hid⟩
    rw [eit_templates_of_absent (by simpa using hex)]
    exact List.mem_append_left _ ht

theorem insert_sub_ref {db : DBState} (T s : String) (h : refInvariant db) :
    refInvariant (insert_sub db T s).2 := by
  unfold insert_sub
  cases hf : find_template_id db T with
  | error e => exact h
  | ok tid =>
    rcases find_template_id_ok hf with ⟨t, ht, _, hid⟩
    exact insertSubRow_ref h ⟨t, ht, hid⟩

theorem insert_subs_ref {db : DBState} (T : String) (S : Option (List String))
    (h : refInvariant db) : refInvariant (insert_subs db T S).2 := by
  cases S with
  | none => exact eit_ref T h
  | some S =>
    cases hf : find_template_id (execute_insert_template db T) T with
    | error e =>
      have e2 : (insert_subs db T (some S)).2 = db := by
        simp only [insert_subs, hf]
      rw [e2]
      exact h
    | ok tid =>
      rw [insert_subs_eq hf]
      rcases find_template_id_ok hf with ⟨t, ht, _, hid⟩
      exact eis_ref tid S _ (eit_ref T h) ⟨t, ht, hid⟩

theorem remove_sub_ref {db : DBState} (T s : String) (h : refInvariant db) :
    refInvariant (remove_sub db T s).2 := by
  unfold remove_sub
  cases hf : find_template_id db T with
  | error e => exact h
  | ok tid =>
    refine refInvariant_of _ db h ?_ rfl
    intro r hr
    rw [removeSubRow_subs] at hr
    exact (List.mem_filter.mp hr).1

theorem remove_subs_ref {db : DBState} (T : String) (S : List String)
    (h : refInvariant db) : refInvariant (remove_subs db T S).2 := by
  unfold remove_subs
  cases hf : find_template_id db T with
  | error e => exact h
  | ok tid =>
    exact refInvariant_of _ db h (ers_subs_subset tid S db) (ers_templates tid S db)

theorem remove_template_ref {db : DBState} (T : String) (h : refInvariant db) :
    refInvariant (remove_template db T).2 := by
  cases hf : find_template_id db T with
  | error e =>
    have e2 : (remove_template db T).2 = db := by
      unfold remove_template
      rw [hf]
    rw [e2]
    exact h
  | ok tid =>
    have e2 : (remove_template db T).2
        = ⟨db.templates.filter (fun t => !(t.1 == tid)),
           db.substitutes.filter (fun r => !(r.2.2 == tid)),
           db.nextTemplateId, db.nextSubId⟩ := by
      rw [remove_template_ok hf]
    rw [e2]
    intro r hr
    rcases List.mem_filter.mp hr with ⟨hrdb, hpred⟩
    rcases h r hrdb with ⟨t, ht, hid⟩
    refine ⟨t, List.mem_filter.mpr ⟨ht, ?_⟩, hid⟩
    rw [hid]
    exact hpred

theorem rename_template_ref {db : DBState} (oldT newT : String) (h : refInvariant db) :
    refInvariant (rename_template db oldT newT).2 := by
  simp only [rename_template]
  split
  · exact h
  · split
    · exact h
    · intro r hr
      rcases h r hr with ⟨t, ht, hid⟩
      refine ⟨_, List.mem_map.mpr ⟨t, ht, rfl⟩, ?_⟩
      by_cases hc : (t.2 == oldT) = true
      · simp only [if_pos hc]
        exact hid
      · simp only [if_neg hc]
        exact hid

theorem rsubState_ref {db : DBState} {tid : Nat} {oldS newS : String}
    (h : refInvariant db) : refInvariant (rsubState db tid oldS newS) := by
  intro r hr
  rcases List.mem_map.mp hr with ⟨v, hv, hvr⟩
  rcases h v hv with ⟨t, ht, hid⟩
  refine ⟨t, ht, ?_⟩
  rw [← hvr]
  by_cases hc : (v.2.1 == oldS && v.2.2 == tid) = true
  · rw [if_pos hc]
    exact hid
  · rw [if_neg hc]
    exact hid

theorem rename_substitute_ref {db : DBState} (T oldS newS : String) (h : refInvariant db) :
    refInvariant (rename_substitute db T oldS newS).2 := by
  simp only [rename_substitute]
  split
  · exact h
  · split
    · exact h
    · split
      · exact h
      · exact rsubState_ref h

/-- C9: every public mutating operation preserves the referential invariant:
after any of them, every substitutes row's template_id still references an
existing templates row (no orphans are observable). -/
theorem refInvariant_preserved (db : DBState) (h : refInvariant db) :
    (∀ T s, refInvariant (insert_sub db T s).2) ∧
    (∀ T S, refInvariant (insert_subs db T S).2) ∧
    (∀ T s, refInvariant (remove_sub db T s).2) ∧
    (∀ T S, refInvariant (remove_subs db T S).2) ∧
    (∀ T, refInvariant (remove_template db T).2) ∧
    (∀ T1 T2, refInvariant (rename_template db T1 T2).2) ∧
    (∀ T s1 s2, refInvariant (rename_substitute db T s1 s2).2) ∧
    refInvariant (clear db) := by
  refine ⟨fun T s => insert_sub_ref T s h,
    fun T S => insert_subs_ref T S h,
    fun T s => remove_sub_ref T s h,
    fun T S => remove_subs_ref T S h,
    fun T => remove_template_ref T h,
    fun T1 T2 => rename_template_ref T1 T2 h,
    fun T s1 s2 => rename_substitute_ref T s1 s2 h,
    ?_⟩
  intro r hr
  exact absurd hr (List.not_mem_nil r)

/-- Witness for C9 at a concrete store holding one template and substitute. -/
theorem refInvariant_preserved_witness :
    (∀ T s, refInvariant (insert_sub (insert_subs from_path "noun" (some ["cat"])).2 T s).2) ∧
    (∀ T S, refInvariant (insert_subs (insert_subs from_path "noun" (some ["cat"])).2 T S).2) ∧
    (∀ T s, refInvariant (remove_sub (insert_subs from_path "noun" (some ["cat"])).2 T s).2) ∧
    (∀ T S, refInvariant (remove_subs (insert_subs from_path "noun" (some ["cat"])).2 T S).2) ∧
    (∀ T, refInvariant (remove_template (insert_subs from_path "noun" (some ["cat"])).2 T).2) ∧
    (∀ T1 T2, refInvariant (rename_template (insert_subs from_path "noun" (some ["cat"])).2 T1 T2).2) ∧
    (∀ T s1 s2, refInvariant (rename_substitute (insert_subs from_path "noun" (some ["cat"])).2 T s1 s2).2) ∧
    refInvariant (clear (insert_subs from_path "noun" (some ["cat"])).2) :=
  refInvariant_preserved (insert_subs from_path "noun" (some ["cat"])).2
    (by unfold refInvariant; decide)

/-! ### `insert_sub` -/

/-- C10: unlike `insert_subs`, the single-pair `insert_sub` does not create the
template: it fails with the NotFound (query-returned-no-rows) error and leaves
the store unchanged when the template is absent; when the template exists it
returns true iff the pair was newly inserted (false, with the store unchanged,
when it was already present), and the pair is present afterwards. -/
theorem insert_sub_spec (db : DBState) (T s : String) :
    (templateExists db T = false → insert_sub db T s = (.error .queryReturnedNoRows, db)) ∧
    (templateExists db T = true →
      (insert_sub db T s).1 = .ok (decide (s ∉ currentSubs db T)) ∧
      (s ∈ currentSubs db T → (insert_sub db T s).2 = db) ∧
      s ∈ currentSubs (insert_sub db T s).2 T) := by
  constructor
  · intro h
    unfold insert_sub
    rw [find_template_id_none h]
  · intro hex
    rcases find_template_id_isOk hex with ⟨tid, hfind⟩
    have e : insert_sub db T s = (.ok (insertSubRow db tid s).1, (insertSubRow db tid s).2) := by
      simp only [insert_sub, hfind]
    have e1 : (insert_sub db T s).1 = .ok (insertSubRow db tid s).1 := by rw [e]
    have e2 : (insert_sub db T s).2 = (insertSubRow db tid s).2 := by rw [e]
    rw [currentSubs_eq_subsOf hfind, e1, e2]
    refine ⟨?_, ?_, ?_⟩
    · rw [insertSubRow_fst]
      congr 1
      by_cases hp : subPresent db tid s = true
      · simp [hp, subPresent_iff.mp hp]
      · have hp' : subPresent db tid s = false := by simpa using hp
        simp [hp', subPresent_eq_false_iff.mp hp']
    · intro hmem
      rw [insertSubRow_of_present (subPresent_iff.mpr hmem)]
    · have hfind2 : find_template_id (insertSubRow db tid s).2 T = .ok tid := by
        rw [find_template_id_eq_of_templates (insertSubRow_templates db tid s) T]
        exact hfind
      rw [currentSubs_eq_subsOf hfind2]
      exact (mem_subsOf_insertSubRow tid s).mpr (Or.inr ⟨rfl, rfl⟩)

/-- Witness for C10 at a concrete input. -/
theorem insert_sub_spec_witness :
    (insert_sub (insert_subs from_path "noun" (some ["cat"])).2 "noun" "dog").1
      = .ok (decide ("dog" ∉ currentSubs (insert_subs from_path "noun" (some ["cat"])).2 "noun")) ∧
    ("dog" ∈ currentSubs (insert_subs from_path "noun" (some ["cat"])).2 "noun" →
      (insert_sub (insert_subs from_path "noun" (some ["cat"])).2 "noun" "dog").2
        = (insert_subs from_path "noun" (some ["cat"])).2) ∧
    "dog" ∈ currentSubs (insert_sub (insert_subs from_path "noun" (some ["cat"])).2 "noun" "dog").2 "noun" :=
  (insert_sub_spec (insert_subs from_path "noun" (some ["cat"])).2 "noun" "dog").2 rfl

end TemplateDatabase
